import Mathlib

/-!
Verification of the dataset generator `gerador_dataset.c`

A shallow embedding of `src/gerador_dataset.c`.  The program is a single `main`
that parses four positional arguments, validates them, opens the output file,
and writes `num_points` lines of `num_dimensions` random integers.

The C library is modelled as follows.

* `int` values are mathematical integers (`Int`); the one addition the program
  performs on user data, `max_val + 1`, is reduced to 32 bits with wrap-around.
* `atoi` follows ISO C / glibc: skip white space, one optional sign, the longest
  run of decimal digits; the value saturates to `long` and is then converted to
  `int`.
* `rand()` is a stream of draws `Env.rand 0, Env.rand 1, ...` (the stream that
  the generator yields after the `srand` call), each a natural number since
  `rand()` never returns a negative value; `World.draws` counts the calls.
* `fopen(path, "w")` is an oracle `Env.fopen`; on failure it yields the text
  that `perror` prints for `errno`.
* Everything the process does to the outside is recorded, in order, in
  `World.trace`.
-/

namespace GeradorDataset

/-! ## Machine integers and libc constants -/

def INT_MAX : Int := 2147483647

def INT_MIN : Int := -2147483648

def LONG_MAX : Int := 9223372036854775807

def LONG_MIN : Int := -9223372036854775808

def EXIT_SUCCESS : Int := 0

def EXIT_FAILURE : Int := 1

/-- Reduction of a mathematical integer to a 32-bit two's-complement `int`. -/
def wrapInt32 (x : Int) : Int := (x + 2147483648) % 4294967296 - 2147483648

/-- The C expression `a + b` on `int`, overflow wrapping modulo 2^32. -/
def addInt32 (a b : Int) : Int := wrapInt32 (a + b)

/-- The C expression `a % b` on `int`: remainder of the division truncated toward zero. -/
def remInt32 (a b : Int) : Int := Int.tmod a b

/-! ## Text conversions of libc -/

/-- The `isspace` of the C locale. -/
def isspace (c : Char) : Bool :=
  c = ' ' || c = '\t' || c = '\n' || c = '\x0b' || c = '\x0c' || c = '\r'

/-- Value of a run of decimal digits. -/
def digitsValue (ds : List Char) : Nat :=
  ds.foldl (fun acc c => acc * 10 + (c.toNat - 48)) 0

/-- The optional sign that `strtol` accepts: whether it is a minus, and the text after it. -/
def signOf (cs : List Char) : Bool × List Char :=
  match cs with
  | '-' :: t => (true, t)
  | '+' :: t => (false, t)
  | _ => (false, cs)

/-- The `strtol(s, NULL, 10)` of libc on the characters of `s`; saturating at the `long` range. -/
def strtol10 (cs : List Char) : Int :=
  let signed := signOf (cs.dropWhile isspace)
  let v : Int := digitsValue (signed.2.takeWhile Char.isDigit)
  let x : Int := if signed.1 then -v else v
  if x > LONG_MAX then LONG_MAX else if x < LONG_MIN then LONG_MIN else x

/-- The `atoi` of libc: `(int) strtol(s, NULL, 10)`. -/
def atoi (s : String) : Int := wrapInt32 (strtol10 s.data)

/-- What `printf` writes for `%d`. -/
def fmtD (v : Int) : List Char :=
  if v < 0 then '-' :: Nat.toDigits 10 v.natAbs else Nat.toDigits 10 v.toNat

/-! ## The outside world -/

/-- One observable action of the process. -/
inductive Event where
  | stderr (text : String)
  | stdout (text : String)
  | fopenW (path : String) (ok : Bool)
  | fileWrite (text : String)
  | fclose
  deriving DecidableEq, Repr

/-- Result of `fopen`: a stream, or `NULL` with the reason `perror` reports. -/
inductive FopenResult where
  | stream
  | null (reason : String)
  deriving DecidableEq, Repr

/-- The environment of one run. -/
structure Env where
  fopen : String → FopenResult
  rand : Nat → Nat

/-- State threaded through `main`. -/
structure World where
  trace : List Event
  draws : Nat
  deriving DecidableEq, Repr

def World.emit (w : World) (e : Event) : World := ⟨w.trace ++ [e], w.draws⟩

/-- One call of `rand()`. -/
def World.rand (w : World) (env : Env) : Int × World :=
  ((env.rand w.draws : Int), ⟨w.trace, w.draws + 1⟩)

/-- The C expression `argv[k]`; glibc prints a null pointer under `%s` as `(null)`. -/
def argvAt (argv : List String) (k : Nat) : String := argv.getD k "(null)"

/-! ## The program -/

/-- Body of the loop over `j` (lines 41-43). -/
def dimBody (env : Env) (num_dimensions max_val : Int) (w : World) (j : Nat) : World :=
  let r := w.rand env
  let random_val := remInt32 r.1 (addInt32 max_val 1)
  r.2.emit (.fileWrite (String.mk
    (fmtD random_val ++ [if (j : Int) = num_dimensions - 1 then '\n' else ' '])))

/-- Body of the loop over `i` (lines 40-44): the loop over `j`. -/
def pointBody (env : Env) (num_dimensions max_val : Int) (w : World) (_i : Nat) : World :=
  (List.range num_dimensions.toNat).foldl (dimBody env num_dimensions max_val) w

/-- The loop over `i` (lines 39-45). -/
def pointsLoop (env : Env) (num_points num_dimensions max_val : Int) (w : World) : World :=
  (List.range num_points.toNat).foldl (pointBody env num_dimensions max_val) w

/-- The function `main` (lines 11-51); `argc` is the length of `argv`. -/
def main (env : Env) (argv : List String) : Int × World :=
  let argc : Int := argv.length
  let w0 : World := ⟨[], 0⟩
  if argc ≠ 5 then
    let w1 := w0.emit (.stderr ("Uso: " ++ argvAt argv 0 ++
      " <num_pontos> <num_dimensoes> <max_val> <arquivo_saida>\n"))
    let w2 := w1.emit (.stderr ("Exemplo: " ++ argvAt argv 0 ++
      " 1000000 10 10000 dataset.txt\n"))
    (EXIT_FAILURE, w2)
  else
    let num_points := atoi (argvAt argv 1)
    let num_dimensions := atoi (argvAt argv 2)
    let max_val := atoi (argvAt argv 3)
    let output_filename := argvAt argv 4
    if num_points ≤ 0 ∨ num_dimensions ≤ 0 ∨ max_val ≤ 0 then
      (EXIT_FAILURE, w0.emit (.stderr
        "Erro: O número de pontos, dimensões e o valor máximo devem ser positivos.\n"))
    else
      match env.fopen output_filename with
      | .null reason =>
        let w1 := w0.emit (.fopenW output_filename false)
        (EXIT_FAILURE, w1.emit (.stderr ("Erro ao abrir o arquivo de saída: " ++ reason ++ "\n")))
      | .stream =>
        let w1 := w0.emit (.fopenW output_filename true)
        let w2 := w1.emit (.stdout ("Gerando \x27" ++ output_filename ++ "\x27 com " ++
          String.mk (fmtD num_points) ++ " pontos, " ++ String.mk (fmtD num_dimensions) ++
          " dimensões e valores até " ++ String.mk (fmtD max_val) ++ "...\n"))
        let w3 := pointsLoop env num_points num_dimensions max_val w2
        let w4 := w3.emit .fclose
        (EXIT_SUCCESS, w4.emit (.stdout "Dataset gerado com sucesso!\n"))

/-! ## Observations on a trace -/

/-- Text received by the error stream. -/
def stderrText : List Event → List Char
  | [] => []
  | .stderr t :: es => t.data ++ stderrText es
  | _ :: es => stderrText es

/-- Text received by standard output. -/
def stdoutText : List Event → List Char
  | [] => []
  | .stdout t :: es => t.data ++ stdoutText es
  | _ :: es => stdoutText es

/-- Text written to the output file. -/
def fileText : List Event → List Char
  | [] => []
  | .fileWrite t :: es => t.data ++ fileText es
  | _ :: es => fileText es

/-- Actions on the file system: every `fopen` attempt, file write and `fclose`. -/
def fsActions : List Event → List Event
  | [] => []
  | .stderr _ :: es => fsActions es
  | .stdout _ :: es => fsActions es
  | e :: es => e :: fsActions es

/-! ## Vocabulary of the specification -/

/-- A numeric argument in the strict sense: one optional sign followed by one or
more decimal digits, and nothing else. -/
def isNumeric (s : String) : Bool :=
  !(signOf s.data).2.isEmpty && (signOf s.data).2.all Char.isDigit

/-- The text has no number at its start: after the white space and one optional
sign that `strtol` skips, the next character is not a decimal digit. -/
def lacksNumber (s : String) : Bool :=
  ((signOf (s.data.dropWhile isspace)).2.takeWhile Char.isDigit).isEmpty

/-- Reading of a token as a decimal integer: an optional minus sign and one or
more decimal digits. -/
def parseDecimal (t : List Char) : Option Int :=
  match t with
  | '-' :: ds =>
    if !ds.isEmpty && ds.all Char.isDigit then some (-(digitsValue ds : Int)) else none
  | ds => if !ds.isEmpty && ds.all Char.isDigit then some (digitsValue ds : Int) else none

/-- The lines of a text in which every line is terminated by a newline. -/
def fileLines (text : List Char) : List (List Char) := (text.splitOn '\n').dropLast

/-- One point of the dataset as the specification describes it: the coordinates
in decimal, joined by one space, followed by a newline. -/
def pointText (coords : List Int) : List Char :=
  [' '].intercalate (coords.map fmtD) ++ ['\n']

/-- The dataset as the specification describes it: the points in order. -/
def datasetText (points : List (List Int)) : List Char :=
  (points.map pointText).flatten

/-- The coordinates of the dataset drawn from a stream: point `i`, dimension `j`
is draw number `i * num_dimensions + j` modulo `max_val + 1`. -/
def drawnPoints (rand : Nat → Nat) (num_points num_dimensions : Nat) (max_val : Int) :
    List (List Int) :=
  (List.range num_points).map fun i =>
    (List.range num_dimensions).map fun j =>
      ((rand (i * num_dimensions + j) : Int) % (max_val + 1))

/-- The value that the loop body computes from draw number `d` (line 42). -/
def randomVal (env : Env) (max_val : Int) (d : Nat) : Int :=
  remInt32 (env.rand d) (addInt32 max_val 1)

/-- The text that the loop body writes at dimension `j` from draw number `d` (line 43). -/
def writeText (env : Env) (num_dimensions max_val : Int) (d j : Nat) : List Char :=
  fmtD (randomVal env max_val d) ++ [if (j : Int) = num_dimensions - 1 then '\n' else ' ']

/-- Of two neighbouring characters at least one is a decimal digit: separators
(space, newline) never touch each other. -/
def Spaced (a b : Char) : Prop := a.isDigit = true ∨ b.isDigit = true

instance (a b : Char) : Decidable (Spaced a b) :=
  inferInstanceAs (Decidable (a.isDigit = true ∨ b.isDigit = true))

/-- The token at line `i`, field `j` of a text, read as a decimal integer. -/
def coordAt (text : List Char) (i j : Nat) : Option Int :=
  match (fileLines text)[i]? with
  | none => none
  | some line =>
    match (line.splitOn ' ')[j]? with
    | none => none
    | some token => parseDecimal token

/-- Scenario A of the specification: 5 points, 2 dimensions, values up to 9. -/
def argvScenarioA : List String := ["gen", "5", "2", "9", "out.txt"]

/-- Scenario B of the specification: a point count of zero. -/
def argvScenarioB : List String := ["gen", "0", "2", "9", "out.txt"]

/-- Scenario C of the specification: 3 points, 1 dimension, values up to 1. -/
def argvScenarioC : List String := ["gen", "3", "1", "1", "out.txt"]

/-- Scenario D of the specification: two arguments where four are required. -/
def argvScenarioD : List String := ["gen", "5", "2"]

/-- Four valid arguments under a program name that holds a newline. -/
def argvNewlineName : List String := ["a\nb", "5", "2", "9", "out.txt"]

/-- An environment in which every `fopen` succeeds. -/
def envOpen : Env := ⟨fun _ => .stream, fun k => 7 * k + 3⟩

/-- An environment whose draws start at the largest `int` and go down. -/
def envMax : Env := ⟨fun _ => .stream, fun k => 2147483647 - k⟩

/-- An environment in which every `fopen` fails. -/
def envDenied : Env := ⟨fun _ => .null "Permission denied", fun k => 7 * k + 3⟩

/-! ## Decimal rendering -/

theorem digitChar_isDigit (k : Nat) (h : k < 10) : (Nat.digitChar k).isDigit = true := by
  interval_cases k <;> rfl

theorem digitChar_value (k : Nat) (h : k < 10) : (Nat.digitChar k).toNat - 48 = k := by
  interval_cases k <;> rfl

theorem digitsValue_concat (ds : List Char) (c : Char) :
    digitsValue (ds ++ [c]) = digitsValue ds * 10 + (c.toNat - 48) := by
  simp [digitsValue, List.foldl_append]

/-- With fuel above `n`, the core loop of `Nat.toDigits` puts in front of the
accumulator a non-empty run of decimal digits whose value is `n`. -/
theorem render_core (fuel : Nat) (n : Nat) (acc : List Char) (hfuel : n + 1 ≤ fuel) :
    ∃ body : List Char, body ≠ [] ∧ digitsValue body = n ∧
      (∀ ch ∈ body, ch.isDigit = true) ∧ Nat.toDigitsCore 10 fuel n acc = body ++ acc := by
  induction fuel generalizing n acc with
  | zero => omega
  | succ fuel ih =>
    have hlow : n % 10 < 10 := Nat.mod_lt _ (by decide)
    unfold Nat.toDigitsCore
    by_cases hq : n / 10 = 0
    · have hsmall : n % 10 = n := Nat.mod_eq_of_lt (by omega)
      refine ⟨[Nat.digitChar (n % 10)], List.cons_ne_nil _ _, ?_, ?_, by simp [hq]⟩
      · have hv := digitsValue_concat [] (Nat.digitChar (n % 10))
        rw [List.nil_append, digitChar_value _ hlow] at hv
        rw [hv, hsmall]
        simp [digitsValue]
      · intro ch hch
        rw [List.mem_singleton.mp hch]
        exact digitChar_isDigit _ hlow
    · obtain ⟨front, hfront, hvalue, hdigits, hrun⟩ :=
        ih (n / 10) (Nat.digitChar (n % 10) :: acc) (by omega)
      refine ⟨front ++ [Nat.digitChar (n % 10)], by simp, ?_, ?_, by simp [hq, hrun]⟩
      · rw [digitsValue_concat, hvalue, digitChar_value _ hlow]
        omega
      · intro ch hch
        rcases List.mem_append.mp hch with hin | hin
        · exact hdigits ch hin
        · rw [List.mem_singleton.mp hin]
          exact digitChar_isDigit _ hlow

theorem toDigits_spec (n : Nat) :
    Nat.toDigits 10 n ≠ [] ∧ (∀ c ∈ Nat.toDigits 10 n, c.isDigit = true) ∧
      digitsValue (Nat.toDigits 10 n) = n := by
  have hcore := render_core (n + 1) n [] (Nat.le_refl _)
  obtain ⟨body, hbody, hvalue, hdigits, hrun⟩ := hcore
  have hrepr : Nat.toDigits 10 n = body := by
    unfold Nat.toDigits
    rw [hrun, List.append_nil]
  rw [hrepr]
  exact ⟨hbody, hdigits, hvalue⟩

theorem fmtD_of_nonneg (v : Int) (h : 0 ≤ v) : fmtD v = Nat.toDigits 10 v.toNat := by
  unfold fmtD
  rw [if_neg (by omega)]

theorem fmtD_ne_nil (v : Int) (h : 0 ≤ v) : fmtD v ≠ [] := by
  rw [fmtD_of_nonneg v h]; exact (toDigits_spec _).1

theorem fmtD_isDigit (v : Int) (h : 0 ≤ v) : ∀ c ∈ fmtD v, c.isDigit = true := by
  rw [fmtD_of_nonneg v h]; exact (toDigits_spec _).2.1

theorem parseDecimal_fmtD (v : Int) (h : 0 ≤ v) : parseDecimal (fmtD v) = some v := by
  have hne := fmtD_ne_nil v h
  have hd := fmtD_isDigit v h
  have hval : (digitsValue (fmtD v) : Int) = v := by
    rw [fmtD_of_nonneg v h, (toDigits_spec _).2.2]
    omega
  have hall : (fmtD v).all Char.isDigit = true := by
    rw [List.all_eq_true]; exact hd
  have hemp : (fmtD v).isEmpty = false := by
    cases hf : fmtD v with
    | nil => exact absurd hf hne
    | cons a t => rfl
  unfold parseDecimal
  split
  · rename_i ds heq
    have : ('-' : Char).isDigit = true := hd _ (by rw [heq]; exact List.mem_cons_self _ _)
    exact absurd this (by decide)
  · simp [hemp, hall, hval]

/-! ## Validation and exit codes -/

theorem main_of_argc_ne (env : Env) (argv : List String) (h : argv.length ≠ 5) :
    main env argv = (EXIT_FAILURE, ⟨[.stderr ("Uso: " ++ argvAt argv 0 ++
      " <num_pontos> <num_dimensoes> <max_val> <arquivo_saida>\n"),
      .stderr ("Exemplo: " ++ argvAt argv 0 ++ " 1000000 10 10000 dataset.txt\n")], 0⟩) := by
  have h' : ((argv.length : Int) ≠ 5) := by exact_mod_cast h
  simp [main, h', World.emit]

theorem main_of_nonpositive (env : Env) (argv : List String) (h : argv.length = 5)
    (hv : atoi (argvAt argv 1) ≤ 0 ∨ atoi (argvAt argv 2) ≤ 0 ∨ atoi (argvAt argv 3) ≤ 0) :
    main env argv = (EXIT_FAILURE, ⟨[.stderr
      "Erro: O número de pontos, dimensões e o valor máximo devem ser positivos.\n"], 0⟩) := by
  simp [main, h, hv, World.emit]

theorem main_of_fopen_null (env : Env) (argv : List String) (h : argv.length = 5)
    (hp : 0 < atoi (argvAt argv 1)) (hd : 0 < atoi (argvAt argv 2))
    (hm : 0 < atoi (argvAt argv 3)) (reason : String)
    (ho : env.fopen (argvAt argv 4) = .null reason) :
    main env argv = (EXIT_FAILURE, ⟨[.fopenW (argvAt argv 4) false,
      .stderr ("Erro ao abrir o arquivo de saída: " ++ reason ++ "\n")], 0⟩) := by
  have hv : ¬ (atoi (argvAt argv 1) ≤ 0 ∨ atoi (argvAt argv 2) ≤ 0 ∨ atoi (argvAt argv 3) ≤ 0) := by
    omega
  simp [main, h, hv, ho, World.emit]

theorem main_of_fopen_stream (env : Env) (argv : List String) (h : argv.length = 5)
    (hp : 0 < atoi (argvAt argv 1)) (hd : 0 < atoi (argvAt argv 2))
    (hm : 0 < atoi (argvAt argv 3))
    (ho : env.fopen (argvAt argv 4) = .stream) :
    main env argv = (EXIT_SUCCESS,
      ((pointsLoop env (atoi (argvAt argv 1)) (atoi (argvAt argv 2)) (atoi (argvAt argv 3))
        ⟨[.fopenW (argvAt argv 4) true,
          .stdout ("Gerando \x27" ++ argvAt argv 4 ++ "\x27 com " ++
          String.mk (fmtD (atoi (argvAt argv 1))) ++ " pontos, " ++
          String.mk (fmtD (atoi (argvAt argv 2))) ++
          " dimensões e valores até " ++ String.mk (fmtD (atoi (argvAt argv 3))) ++ "...\n")],
          0⟩).emit .fclose).emit (.stdout "Dataset gerado com sucesso!\n")) := by
  have hv : ¬ (atoi (argvAt argv 1) ≤ 0 ∨ atoi (argvAt argv 2) ≤ 0 ∨ atoi (argvAt argv 3) ≤ 0) := by
    omega
  simp [main, h, hv, ho, World.emit]

/-! ## The emission loops -/

theorem dimBody_eq (env : Env) (nd mv : Int) (w : World) (j : Nat) :
    dimBody env nd mv w j =
      ⟨w.trace ++ [.fileWrite (String.mk (writeText env nd mv w.draws j))], w.draws + 1⟩ := rfl

theorem dimLoop_eq (env : Env) (nd mv : Int) (k : Nat) (w : World) :
    (List.range k).foldl (dimBody env nd mv) w =
      ⟨w.trace ++ (List.range k).map
        (fun j => Event.fileWrite (String.mk (writeText env nd mv (w.draws + j) j))),
        w.draws + k⟩ := by
  induction k with
  | zero => simp
  | succ k ih =>
    rw [List.range_succ, List.foldl_append, ih]
    simp [dimBody_eq, List.append_assoc, Nat.add_assoc]

theorem pointsLoop_eq (env : Env) (np nd mv : Int) (w : World) :
    pointsLoop env np nd mv w =
      ⟨w.trace ++ ((List.range np.toNat).map (fun i => (List.range nd.toNat).map
        (fun j => Event.fileWrite
          (String.mk (writeText env nd mv (w.draws + i * nd.toNat + j) j))))).flatten,
        w.draws + np.toNat * nd.toNat⟩ := by
  unfold pointsLoop
  generalize np.toNat = n
  induction n with
  | zero => simp
  | succ n ih =>
    rw [List.range_succ, List.foldl_append, ih]
    simp [pointBody, dimLoop_eq, List.append_assoc, Nat.add_assoc, Nat.succ_mul, Nat.add_mul]

theorem fileText_append (a b : List Event) : fileText (a ++ b) = fileText a ++ fileText b := by
  induction a with
  | nil => rfl
  | cons e a ih => cases e <;> simp [fileText, ih]

theorem fileText_flatten (L : List (List Event)) :
    fileText L.flatten = (L.map fileText).flatten := by
  induction L with
  | nil => rfl
  | cons l L ih => simp [fileText_append, ih]

theorem fileText_map_fileWrite (f : Nat → List Char) (l : List Nat) :
    fileText (l.map (fun j => Event.fileWrite (String.mk (f j)))) = (l.map f).flatten := by
  induction l with
  | nil => rfl
  | cons a l ih => simp [fileText, ih]

theorem intercalate_concat {α : Type} (sep : List α) (l : List (List α)) (y : List α) :
    sep.intercalate (l ++ [y]) = (l.map (· ++ sep)).flatten ++ y := by
  induction l with
  | nil => simp [List.intercalate]
  | cons a l ih =>
    cases l with
    | nil => simp [List.intercalate]
    | cons b l =>
      simp only [List.intercalate, List.cons_append, List.intersperse_cons₂, List.flatten_cons,
        List.map_cons, List.append_assoc] at ih ⊢
      rw [ih]

/-- The text of one point as the loop over `j` writes it. -/
theorem rowText_eq (env : Env) (nd mv : Int) (n base : Nat) (hn : 0 < n) (hnd : nd = (n : Int)) :
    ((List.range n).map (fun j => writeText env nd mv (base + j) j)).flatten =
      pointText ((List.range n).map (fun j => randomVal env mv (base + j))) := by
  obtain ⟨m, rfl⟩ : ∃ m, n = m + 1 := ⟨n - 1, by omega⟩
  rw [List.range_succ]
  unfold pointText
  simp only [List.map_append, List.map_singleton, List.map_cons, List.map_nil]
  rw [intercalate_concat, List.flatten_append]
  have hlast : writeText env nd mv (base + m) m = fmtD (randomVal env mv (base + m)) ++ ['\n'] := by
    unfold writeText
    rw [if_pos (by rw [hnd]; push_cast; omega)]
  have hinit : (List.range m).map (fun j => writeText env nd mv (base + j) j) =
      ((List.range m).map (fun j => fmtD (randomVal env mv (base + j)))).map (· ++ [' ']) := by
    rw [List.map_map]
    apply List.map_congr_left
    intro j hj
    rw [List.mem_range] at hj
    unfold writeText
    rw [if_neg (by rw [hnd]; push_cast; omega)]
    rfl
  rw [hinit, hlast]
  simp [List.map_map, Function.comp_def]

/-! ## Values written -/

theorem atoi_le_INT_MAX (s : String) : atoi s ≤ INT_MAX := by
  unfold atoi wrapInt32 INT_MAX
  omega

theorem randomVal_eq (env : Env) (mv : Int) (d : Nat) (h0 : 0 < mv) (h1 : mv ≤ INT_MAX) :
    randomVal env mv d = (env.rand d : Int) % (mv + 1) := by
  unfold randomVal remInt32
  unfold INT_MAX at h1
  by_cases hlt : mv < 2147483647
  · have hw : addInt32 mv 1 = mv + 1 := by
      unfold addInt32 wrapInt32
      omega
    rw [hw]
    exact Int.tmod_eq_emod (Int.ofNat_nonneg _) (by omega)
  · have hmv : mv = 2147483647 := by omega
    subst hmv
    have hw : addInt32 2147483647 1 = -2147483648 := by decide
    rw [hw, Int.tmod_neg]
    exact Int.tmod_eq_emod (Int.ofNat_nonneg _) (by decide)

/-- The points that a run writes: row `i`, column `j` holds the value computed
from draw number `i * n + j`. -/
theorem drawnPoints_eq (env : Env) (mv : Int) (m n : Nat) (h0 : 0 < mv) (h1 : mv ≤ INT_MAX) :
    (List.range m).map (fun i => (List.range n).map (fun j => randomVal env mv (0 + i * n + j))) =
      drawnPoints env.rand m n mv := by
  unfold drawnPoints
  apply List.map_congr_left
  intro i _
  apply List.map_congr_left
  intro j _
  rw [randomVal_eq env mv _ h0 h1, Nat.zero_add]

/-- The trace of a successful run. -/
theorem main_trace (env : Env) (argv : List String) (h : argv.length = 5)
    (hp : 0 < atoi (argvAt argv 1)) (hd : 0 < atoi (argvAt argv 2))
    (hm : 0 < atoi (argvAt argv 3)) (ho : env.fopen (argvAt argv 4) = .stream) :
    (main env argv).2.trace =
      [.fopenW (argvAt argv 4) true,
        .stdout ("Gerando \x27" ++ argvAt argv 4 ++ "\x27 com " ++
          String.mk (fmtD (atoi (argvAt argv 1))) ++ " pontos, " ++
          String.mk (fmtD (atoi (argvAt argv 2))) ++
          " dimensões e valores até " ++ String.mk (fmtD (atoi (argvAt argv 3))) ++ "...\n")] ++
      (((List.range (atoi (argvAt argv 1)).toNat).map (fun i =>
        (List.range (atoi (argvAt argv 2)).toNat).map (fun j => Event.fileWrite (String.mk
          (writeText env (atoi (argvAt argv 2)) (atoi (argvAt argv 3))
            (0 + i * (atoi (argvAt argv 2)).toNat + j) j))))).flatten ++
      [.fclose, .stdout "Dataset gerado com sucesso!\n"]) := by
  rw [main_of_fopen_stream env argv h hp hd hm ho, pointsLoop_eq]
  simp [World.emit]

theorem main_fileText (env : Env) (argv : List String) (h : argv.length = 5)
    (hp : 0 < atoi (argvAt argv 1)) (hd : 0 < atoi (argvAt argv 2))
    (hm : 0 < atoi (argvAt argv 3)) (ho : env.fopen (argvAt argv 4) = .stream) :
    fileText (main env argv).2.trace =
      datasetText (drawnPoints env.rand (atoi (argvAt argv 1)).toNat (atoi (argvAt argv 2)).toNat
        (atoi (argvAt argv 3))) := by
  rw [main_trace env argv h hp hd hm ho, fileText_append, fileText_append, fileText_flatten]
  have e1 : ∀ a b, fileText [Event.fopenW a true, Event.stdout b] = [] := fun _ _ => rfl
  have e2 : ∀ b, fileText [Event.fclose, Event.stdout b] = [] := fun _ => rfl
  rw [e1, e2, List.nil_append, List.append_nil]
  rw [← drawnPoints_eq env _ _ _ hm (atoi_le_INT_MAX _)]
  unfold datasetText
  rw [List.map_map, List.map_map]
  congr 1
  apply List.map_congr_left
  intro i _
  simp only [Function.comp_apply]
  rw [fileText_map_fileWrite (fun j => writeText env (atoi (argvAt argv 2)) (atoi (argvAt argv 3))
    (0 + i * (atoi (argvAt argv 2)).toNat + j) j)]
  exact rowText_eq env _ _ _ _ (by omega) (by omega)

theorem main_draw_count (env : Env) (argv : List String) (h : argv.length = 5)
    (hp : 0 < atoi (argvAt argv 1)) (hd : 0 < atoi (argvAt argv 2))
    (hm : 0 < atoi (argvAt argv 3)) (ho : env.fopen (argvAt argv 4) = .stream) :
    (main env argv).2.draws = (atoi (argvAt argv 1)).toNat * (atoi (argvAt argv 2)).toNat := by
  rw [main_of_fopen_stream env argv h hp hd hm ho, pointsLoop_eq]
  simp [World.emit]

/-! ## Shape of the dataset text -/

theorem mem_intercalate {α : Type} (sep : List α) (c : α) :
    ∀ ls : List (List α), c ∈ sep.intercalate ls → c ∈ sep ∨ ∃ l ∈ ls, c ∈ l := by
  intro ls
  rcases List.eq_nil_or_concat ls with rfl | ⟨L, y, rfl⟩
  · simp [List.intercalate]
  · rw [List.concat_eq_append, intercalate_concat]
    intro hc
    rw [List.mem_append, List.mem_flatten] at hc
    rcases hc with ⟨p, hp, hcp⟩ | hc
    · rw [List.mem_map] at hp
      obtain ⟨l, hl, rfl⟩ := hp
      rw [List.mem_append] at hcp
      rcases hcp with h | h
      · exact Or.inr ⟨l, List.mem_append_left _ hl, h⟩
      · exact Or.inl h
    · exact Or.inr ⟨y, by simp, hc⟩

/-- The text of the coordinates of one point, without the newline. -/
theorem rowBody_not_mem (row : List Int) (hrow : ∀ v ∈ row, 0 ≤ v) (c : Char)
    (hc : c.isDigit = false) (hsp : c ≠ ' ') : c ∉ [' '].intercalate (row.map fmtD) := by
  intro hmem
  rcases mem_intercalate _ _ _ hmem with h | ⟨l, hl, hcl⟩
  · exact hsp (List.mem_singleton.mp h)
  · rw [List.mem_map] at hl
    obtain ⟨v, hv, rfl⟩ := hl
    have := fmtD_isDigit v (hrow v hv) c hcl
    rw [hc] at this
    exact absurd this (by decide)

theorem datasetText_cons (row : List Int) (points : List (List Int)) :
    datasetText (row :: points) = pointText row ++ datasetText points := by
  simp [datasetText]

theorem fileLines_datasetText (points : List (List Int))
    (hpts : ∀ row ∈ points, ∀ v ∈ row, 0 ≤ v) :
    fileLines (datasetText points) =
      points.map (fun row => [' '].intercalate (row.map fmtD)) := by
  have hform : datasetText points =
      ['\n'].intercalate (points.map (fun row => [' '].intercalate (row.map fmtD)) ++ [[]]) := by
    rw [intercalate_concat, List.append_nil, List.map_map]
    rfl
  unfold fileLines
  rw [hform, List.splitOn_intercalate _ '\n' _ (by simp), List.dropLast_concat]
  intro l hl
  rw [List.mem_append, List.mem_singleton] at hl
  rcases hl with hl | rfl
  · rw [List.mem_map] at hl
    obtain ⟨row, hrow, rfl⟩ := hl
    exact rowBody_not_mem row (hpts row hrow) '\n' (by decide) (by decide)
  · simp

theorem splitOn_rowBody (row : List Int) (hne : row ≠ []) (hrow : ∀ v ∈ row, 0 ≤ v) :
    ([' '].intercalate (row.map fmtD)).splitOn ' ' = row.map fmtD := by
  apply List.splitOn_intercalate _ ' ' _ (by simpa using hne)
  intro l hl
  rw [List.mem_map] at hl
  obtain ⟨v, hv, rfl⟩ := hl
  intro hmem
  have := fmtD_isDigit v (hrow v hv) ' ' hmem
  exact absurd this (by decide)

theorem count_newline_pointText (row : List Int) (hrow : ∀ v ∈ row, 0 ≤ v) :
    (pointText row).count '\n' = 1 := by
  unfold pointText
  rw [List.count_append,
    List.count_eq_zero_of_not_mem (rowBody_not_mem row hrow '\n' (by decide) (by decide))]
  rfl

theorem count_newline_datasetText (points : List (List Int))
    (hpts : ∀ row ∈ points, ∀ v ∈ row, 0 ≤ v) :
    (datasetText points).count '\n' = points.length := by
  induction points with
  | nil => rfl
  | cons row points ih =>
    rw [datasetText_cons, List.count_append, count_newline_pointText row
      (hpts row (List.mem_cons_self _ _)), ih (fun r hr => hpts r (List.mem_cons_of_mem _ hr)),
      List.length_cons]
    omega

theorem getLast?_datasetText (points : List (List Int)) (hne : points ≠ []) :
    (datasetText points).getLast? = some '\n' := by
  induction points with
  | nil => exact absurd rfl hne
  | cons row points ih =>
    rw [datasetText_cons, List.getLast?_append]
    by_cases hp : points = []
    · subst hp
      simp [datasetText, pointText]
    · rw [ih hp]
      rfl

/-! ### Separators never touch -/

theorem chain_of_digits (ds : List Char) (h : ∀ c ∈ ds, c.isDigit = true) :
    List.Chain' Spaced ds := by
  induction ds with
  | nil => exact List.chain'_nil
  | cons a ds ih =>
    rw [List.chain'_cons']
    exact ⟨fun _ _ => Or.inl (h a (List.mem_cons_self _ _)),
      ih (fun c hc => h c (List.mem_cons_of_mem _ hc))⟩

theorem chain_pieces (pieces : List (List Char))
    (hp : ∀ p ∈ pieces, ∃ ds s, p = ds ++ [s] ∧ ds ≠ [] ∧ ∀ c ∈ ds, c.isDigit = true) :
    List.Chain' Spaced pieces.flatten ∧ ∀ c ∈ pieces.flatten.head?, c.isDigit = true := by
  induction pieces with
  | nil => exact ⟨List.chain'_nil, by simp⟩
  | cons p pieces ih =>
    obtain ⟨ds, s, rfl, hne, hds⟩ := hp p (List.mem_cons_self _ _)
    obtain ⟨ihc, ihh⟩ := ih (fun q hq => hp q (List.mem_cons_of_mem _ hq))
    rw [List.flatten_cons]
    refine ⟨?_, ?_⟩
    · rw [List.chain'_append]
      refine ⟨?_, ihc, fun _ _ y hy => Or.inr (ihh y hy)⟩
      rw [List.chain'_append]
      exact ⟨chain_of_digits ds hds, List.chain'_singleton s,
        fun x hx _ _ => Or.inl (hds x (List.mem_of_mem_getLast? hx))⟩
    · intro c hc
      cases ds with
      | nil => exact absurd rfl hne
      | cons a ds =>
        simp only [List.cons_append, List.head?_cons, Option.mem_def, Option.some.injEq] at hc
        rw [← hc]
        exact hds a (List.mem_cons_self _ _)

theorem pointText_pieces (row : List Int) (hne : row ≠ []) (hrow : ∀ v ∈ row, 0 ≤ v) :
    ∃ pieces : List (List Char), pointText row = pieces.flatten ∧
      ∀ p ∈ pieces, ∃ ds s, p = ds ++ [s] ∧ ds ≠ [] ∧ ∀ c ∈ ds, c.isDigit = true := by
  rcases List.eq_nil_or_concat row with rfl | ⟨L, y, rfl⟩
  · exact absurd rfl hne
  · rw [List.concat_eq_append] at hrow ⊢
    refine ⟨(L.map fmtD).map (· ++ [' ']) ++ [fmtD y ++ ['\n']], ?_, ?_⟩
    · unfold pointText
      rw [List.map_append, List.map_singleton, intercalate_concat]
      simp
    · intro p hp
      rw [List.mem_append, List.mem_singleton, List.mem_map] at hp
      rcases hp with ⟨t, ht, rfl⟩ | rfl
      · rw [List.mem_map] at ht
        obtain ⟨v, hv, rfl⟩ := ht
        have hv0 := hrow v (List.mem_append_left _ hv)
        exact ⟨fmtD v, ' ', rfl, fmtD_ne_nil v hv0, fmtD_isDigit v hv0⟩
      · have hv0 := hrow y (by simp)
        exact ⟨fmtD y, '\n', rfl, fmtD_ne_nil y hv0, fmtD_isDigit y hv0⟩

theorem datasetText_pieces (points : List (List Int))
    (hpts : ∀ row ∈ points, row ≠ [] ∧ ∀ v ∈ row, 0 ≤ v) :
    ∃ pieces : List (List Char), datasetText points = pieces.flatten ∧
      ∀ p ∈ pieces, ∃ ds s, p = ds ++ [s] ∧ ds ≠ [] ∧ ∀ c ∈ ds, c.isDigit = true := by
  induction points with
  | nil => exact ⟨[], rfl, by simp⟩
  | cons row points ih =>
    obtain ⟨ps, hps, hpp⟩ := ih (fun r hr => hpts r (List.mem_cons_of_mem _ hr))
    obtain ⟨hne, hrow⟩ := hpts row (List.mem_cons_self _ _)
    obtain ⟨qs, hqs, hqq⟩ := pointText_pieces row hne hrow
    refine ⟨qs ++ ps, ?_, ?_⟩
    · rw [datasetText_cons, hqs, hps, List.flatten_append]
    · intro p hp
      rw [List.mem_append] at hp
      rcases hp with h | h
      · exact hqq p h
      · exact hpp p h

theorem datasetText_spaced (points : List (List Int))
    (hpts : ∀ row ∈ points, row ≠ [] ∧ ∀ v ∈ row, 0 ≤ v) :
    List.Chain' Spaced (datasetText points) ∧
      ∀ c ∈ (datasetText points).head?, c.isDigit = true := by
  obtain ⟨ps, hps, hpp⟩ := datasetText_pieces points hpts
  rw [hps]
  exact chain_pieces ps hpp

theorem not_infix_of_spaced (text : List Char) (h : List.Chain' Spaced text) (a b : Char)
    (ha : a.isDigit = false) (hb : b.isDigit = false) : ¬ [a, b] <:+: text := by
  intro hin
  have := h.infix hin
  rw [List.chain'_pair] at this
  rcases this with h1 | h1
  · rw [ha] at h1; exact absurd h1 (by decide)
  · rw [hb] at h1; exact absurd h1 (by decide)

/-! ### The drawn points -/

theorem drawnPoints_length (rand : Nat → Nat) (m n : Nat) (mv : Int) :
    (drawnPoints rand m n mv).length = m := by
  simp [drawnPoints]

theorem drawnPoints_rows (rand : Nat → Nat) (m n : Nat) (mv : Int) (hn : 0 < n) (hm : 0 < mv) :
    ∀ row ∈ drawnPoints rand m n mv,
      row.length = n ∧ row ≠ [] ∧ ∀ v ∈ row, 0 ≤ v ∧ v ≤ mv := by
  intro row hrow
  unfold drawnPoints at hrow
  rw [List.mem_map] at hrow
  obtain ⟨i, _, rfl⟩ := hrow
  refine ⟨by simp, ?_, ?_⟩
  · intro hnil
    have := congrArg List.length hnil
    simp at this
    omega
  · intro v hv
    rw [List.mem_map] at hv
    obtain ⟨j, _, rfl⟩ := hv
    have hpos : (0 : Int) < mv + 1 := by omega
    have h2 := Int.emod_nonneg (rand (i * n + j) : Int) (ne_of_gt hpos)
    have h3 := Int.emod_lt_of_pos (rand (i * n + j) : Int) hpos
    omega

/-! ## Claims on argument handling -/

/-- C4: with a number of arguments other than four (`argc != 5`), whatever the
arguments are, `main` returns a non-zero exit code, the error stream receives
the usage message (the `Uso:` line and the `Exemplo:` line), and nothing is
opened or written on the file system, nor printed on standard output. -/
theorem main_wrong_arity (env : Env) (argv : List String) (h : argv.length ≠ 5) :
    (main env argv).1 ≠ 0 ∧
    stderrText (main env argv).2.trace =
      ("Uso: " ++ argvAt argv 0 ++
        " <num_pontos> <num_dimensoes> <max_val> <arquivo_saida>\n").data ++
      ("Exemplo: " ++ argvAt argv 0 ++ " 1000000 10 10000 dataset.txt\n").data ∧
    fsActions (main env argv).2.trace = [] ∧
    fileText (main env argv).2.trace = [] ∧
    stdoutText (main env argv).2.trace = [] := by
  rw [main_of_argc_ne env argv h]
  simp [stderrText, fsActions, fileText, stdoutText, EXIT_FAILURE]

theorem main_wrong_arity_witness :
    argvScenarioD.length ≠ 5 ∧
    ((main envOpen argvScenarioD).1 ≠ 0 ∧
    stderrText (main envOpen argvScenarioD).2.trace =
      ("Uso: " ++ argvAt argvScenarioD 0 ++
        " <num_pontos> <num_dimensoes> <max_val> <arquivo_saida>\n").data ++
      ("Exemplo: " ++ argvAt argvScenarioD 0 ++ " 1000000 10 10000 dataset.txt\n").data ∧
    fsActions (main envOpen argvScenarioD).2.trace = [] ∧
    fileText (main envOpen argvScenarioD).2.trace = [] ∧
    stdoutText (main envOpen argvScenarioD).2.trace = []) :=
  ⟨by decide, main_wrong_arity envOpen argvScenarioD (by decide)⟩

/-- C3: with four arguments of which a parsed `num_points`, `num_dimensions` or
`max_val` is zero or negative, `main` returns a non-zero exit code, the error
stream receives the positivity message, no `fopen`, write or `fclose` happens
(the file system is left as it was) and nothing is printed on standard output. -/
theorem main_nonpositive (env : Env) (argv : List String) (h : argv.length = 5)
    (hv : atoi (argvAt argv 1) ≤ 0 ∨ atoi (argvAt argv 2) ≤ 0 ∨ atoi (argvAt argv 3) ≤ 0) :
    (main env argv).1 ≠ 0 ∧
    stderrText (main env argv).2.trace =
      "Erro: O número de pontos, dimensões e o valor máximo devem ser positivos.\n".data ∧
    fsActions (main env argv).2.trace = [] ∧
    fileText (main env argv).2.trace = [] ∧
    stdoutText (main env argv).2.trace = [] := by
  rw [main_of_nonpositive env argv h hv]
  simp [stderrText, fsActions, fileText, stdoutText, EXIT_FAILURE]

theorem main_nonpositive_witness :
    (argvScenarioB.length = 5 ∧
      (atoi (argvAt argvScenarioB 1) ≤ 0 ∨ atoi (argvAt argvScenarioB 2) ≤ 0 ∨
        atoi (argvAt argvScenarioB 3) ≤ 0)) ∧
    ((main envOpen argvScenarioB).1 ≠ 0 ∧
    stderrText (main envOpen argvScenarioB).2.trace =
      "Erro: O número de pontos, dimensões e o valor máximo devem ser positivos.\n".data ∧
    fsActions (main envOpen argvScenarioB).2.trace = [] ∧
    fileText (main envOpen argvScenarioB).2.trace = [] ∧
    stdoutText (main envOpen argvScenarioB).2.trace = []) :=
  ⟨by decide, main_nonpositive envOpen argvScenarioB (by decide) (by decide)⟩

/-- C5: `main` returns exit code 0 exactly when it received four arguments, the
three parsed numbers are strictly positive and `fopen` of the output path
succeeded; in every other case it returns the non-zero `EXIT_FAILURE`. -/
theorem main_exit_zero_iff (env : Env) (argv : List String) :
    ((main env argv).1 = 0 ↔
      (argv.length = 5 ∧ 0 < atoi (argvAt argv 1) ∧ 0 < atoi (argvAt argv 2) ∧
        0 < atoi (argvAt argv 3) ∧ env.fopen (argvAt argv 4) = .stream)) ∧
    ((main env argv).1 = 0 ∨ (main env argv).1 = EXIT_FAILURE) ∧
    EXIT_FAILURE ≠ 0 := by
  by_cases h : argv.length = 5
  · by_cases hv : atoi (argvAt argv 1) ≤ 0 ∨ atoi (argvAt argv 2) ≤ 0 ∨ atoi (argvAt argv 3) ≤ 0
    · rw [main_of_nonpositive env argv h hv]
      refine ⟨⟨fun hc => absurd hc (by decide), fun hc => ?_⟩, Or.inr rfl, by decide⟩
      omega
    · have hp : 0 < atoi (argvAt argv 1) := by omega
      have hd : 0 < atoi (argvAt argv 2) := by omega
      have hm : 0 < atoi (argvAt argv 3) := by omega
      cases ho : env.fopen (argvAt argv 4) with
      | stream =>
        rw [main_of_fopen_stream env argv h hp hd hm ho]
        simp [EXIT_SUCCESS, EXIT_FAILURE, h, hp, hd, hm]
      | null reason =>
        rw [main_of_fopen_null env argv h hp hd hm reason ho]
        simp [EXIT_FAILURE]
  · rw [main_of_argc_ne env argv h]
    simp [EXIT_FAILURE, h]

/-- C10: for every `max_val` that passes validation (`0 < max_val <= INT_MAX`)
the divisor `max_val + 1` computed on 32 bits with wrap-around is not zero, and
the addition stays inside the range of `int` exactly when `max_val < INT_MAX`. -/
theorem divisor_ne_zero (max_val : Int) (h0 : 0 < max_val) (h1 : max_val ≤ INT_MAX) :
    addInt32 max_val 1 ≠ 0 ∧
    ((INT_MIN ≤ max_val + 1 ∧ max_val + 1 ≤ INT_MAX) ↔ max_val < INT_MAX) ∧
    (addInt32 max_val 1 = max_val + 1 ↔ max_val < INT_MAX) := by
  simp only [addInt32, wrapInt32, INT_MAX, INT_MIN] at *
  omega

theorem divisor_ne_zero_witness :
    ((0 : Int) < 2147483647 ∧ (2147483647 : Int) ≤ INT_MAX) ∧
    (addInt32 2147483647 1 ≠ 0 ∧
    ((INT_MIN ≤ (2147483647 : Int) + 1 ∧ (2147483647 : Int) + 1 ≤ INT_MAX) ↔
      (2147483647 : Int) < INT_MAX) ∧
    (addInt32 2147483647 1 = 2147483647 + 1 ↔ (2147483647 : Int) < INT_MAX)) :=
  ⟨by decide, divisor_ne_zero 2147483647 (by decide) (by decide)⟩

/-! ## Permissive parsing -/

/-- Sample values of `atoi`: leading white space and a sign are skipped, the
leading digits are read, anything after them is ignored, a text without
leading digits gives zero, and leading digits beyond the range of `int` wrap. -/
theorem atoi_samples :
    atoi "42" = 42 ∧ atoi " \t-12x" = -12 ∧ atoi "+7" = 7 ∧ atoi "3.5" = 3 ∧
    atoi "abc" = 0 ∧ atoi "-" = 0 ∧ atoi "" = 0 ∧
    atoi "2147483647" = INT_MAX ∧ atoi "2147483648" = INT_MIN ∧
    atoi "4294967296abc" = 0 ∧ lacksNumber "4294967296abc" = false := by
  decide

theorem atoi_of_lacksNumber (s : String) (h : lacksNumber s = true) : atoi s = 0 := by
  unfold lacksNumber at h
  rw [List.isEmpty_iff] at h
  simp only [atoi, strtol10, h]
  cases (signOf (s.data.dropWhile isspace)).1 <;>
    simp [digitsValue, LONG_MAX, LONG_MIN, wrapInt32]

/-- C7, as the code has it: with four arguments of which one of the first three
has no number at its start (after the white space and the optional sign that
`atoi` skips, the next character is not a digit), that argument parses to zero,
so `main` fails with the positivity message and a non-zero exit code, and no
`fopen` or write happens. -/
theorem main_lacksNumber (env : Env) (argv : List String) (h : argv.length = 5) (k : Nat)
    (hk : k = 1 ∨ k = 2 ∨ k = 3) (hs : lacksNumber (argvAt argv k) = true) :
    atoi (argvAt argv k) = 0 ∧
    (main env argv).1 ≠ 0 ∧
    stderrText (main env argv).2.trace =
      "Erro: O número de pontos, dimensões e o valor máximo devem ser positivos.\n".data ∧
    fsActions (main env argv).2.trace = [] := by
  have h0 := atoi_of_lacksNumber _ hs
  have hv : atoi (argvAt argv 1) ≤ 0 ∨ atoi (argvAt argv 2) ≤ 0 ∨ atoi (argvAt argv 3) ≤ 0 := by
    rcases hk with rfl | rfl | rfl
    · exact Or.inl (le_of_eq h0)
    · exact Or.inr (Or.inl (le_of_eq h0))
    · exact Or.inr (Or.inr (le_of_eq h0))
  rw [main_of_nonpositive env argv h hv]
  simp [stderrText, fsActions, EXIT_FAILURE, h0]

theorem main_lacksNumber_witness :
    (["gen", "abc", "2", "9", "out.txt"].length = 5 ∧
      lacksNumber (argvAt ["gen", "abc", "2", "9", "out.txt"] 1) = true) ∧
    (atoi (argvAt ["gen", "abc", "2", "9", "out.txt"] 1) = 0 ∧
    (main envOpen ["gen", "abc", "2", "9", "out.txt"]).1 ≠ 0 ∧
    stderrText (main envOpen ["gen", "abc", "2", "9", "out.txt"]).2.trace =
      "Erro: O número de pontos, dimensões e o valor máximo devem ser positivos.\n".data ∧
    fsActions (main envOpen ["gen", "abc", "2", "9", "out.txt"]).2.trace = []) :=
  ⟨by decide, main_lacksNumber envOpen ["gen", "abc", "2", "9", "out.txt"] (by decide) 1
    (Or.inl rfl) (by decide)⟩

/-- C7 as stated fails: the argument `2abc` is not numeric, yet `atoi` reads it
as 2, validation passes, the output file is opened and `main` returns 0. -/
theorem main_nonnumeric_accepted :
    isNumeric "2abc" = false ∧
    atoi "2abc" = 2 ∧
    (main envOpen ["gen", "2abc", "1", "9", "out.txt"]).1 = 0 ∧
    (fsActions (main envOpen ["gen", "2abc", "1", "9", "out.txt"]).2.trace).head? =
      some (.fopenW "out.txt" true) ∧
    stderrText (main envOpen ["gen", "2abc", "1", "9", "out.txt"]).2.trace = [] := by
  decide

/-! ## Diagnostics -/

/-- C8, as the code has it: a failing run writes to the error stream only, and
stops there.  A validation error gives one newline-terminated line, whatever the
arguments are; a failed `fopen` gives one newline-terminated line when the
reason reported for `errno` holds no newline; a usage error gives two
newline-terminated lines, `Uso:` and `Exemplo:`, when the program name holds no
newline.  Nothing goes to standard output or to the file, the only other action
is the failed `fopen` itself, and the write to the error stream is the last
action of the run. -/
theorem main_failure_diagnostic (env : Env) (argv : List String)
    (hfail : (main env argv).1 ≠ 0)
    (hname : argv.length ≠ 5 → '\n' ∉ (argvAt argv 0).data)
    (hreason : ∀ reason, argv.length = 5 → 0 < atoi (argvAt argv 1) →
      0 < atoi (argvAt argv 2) → 0 < atoi (argvAt argv 3) →
      env.fopen (argvAt argv 4) = .null reason → '\n' ∉ reason.data) :
    (stderrText (main env argv).2.trace).count '\n' = (if argv.length = 5 then 1 else 2) ∧
    (stderrText (main env argv).2.trace).getLast? = some '\n' ∧
    stdoutText (main env argv).2.trace = [] ∧
    fileText (main env argv).2.trace = [] ∧
    (fsActions (main env argv).2.trace = [] ∨
      fsActions (main env argv).2.trace = [.fopenW (argvAt argv 4) false]) ∧
    (∃ es t, (main env argv).2.trace = es ++ [.stderr t]) := by
  by_cases h : argv.length = 5
  · by_cases hv : atoi (argvAt argv 1) ≤ 0 ∨ atoi (argvAt argv 2) ≤ 0 ∨ atoi (argvAt argv 3) ≤ 0
    · rw [main_of_nonpositive env argv h hv]
      refine ⟨?_, ?_, ?_, ?_, ?_, ⟨[], _, rfl⟩⟩
      · rw [if_pos h]; decide
      · decide
      · rfl
      · rfl
      · exact Or.inl rfl
    · have hp : 0 < atoi (argvAt argv 1) := by omega
      have hd : 0 < atoi (argvAt argv 2) := by omega
      have hm : 0 < atoi (argvAt argv 3) := by omega
      cases ho : env.fopen (argvAt argv 4) with
      | stream =>
        rw [main_of_fopen_stream env argv h hp hd hm ho] at hfail
        exact absurd rfl hfail
      | null reason =>
        rw [main_of_fopen_null env argv h hp hd hm reason ho]
        have hr := hreason reason h hp hd hm ho
        refine ⟨?_, ?_, ?_, ?_, ?_, ⟨[_], _, rfl⟩⟩
        · rw [if_pos h]
          simp only [stderrText, String.data_append, List.append_nil, List.count_append,
            List.count_eq_zero_of_not_mem hr]
          decide
        · simp only [stderrText, String.data_append, List.append_nil, List.getLast?_append]
          rfl
        · rfl
        · rfl
        · exact Or.inr rfl
  · rw [main_of_argc_ne env argv h]
    have hn := hname h
    refine ⟨?_, ?_, ?_, ?_, ?_, ⟨[_], _, rfl⟩⟩
    · rw [if_neg h]
      simp only [stderrText, String.data_append, List.append_nil, List.count_append,
        List.count_eq_zero_of_not_mem hn]
      decide
    · simp only [stderrText, String.data_append, List.append_nil, List.getLast?_append]
      rfl
    · rfl
    · rfl
    · exact Or.inl rfl

theorem main_failure_diagnostic_witness :
    ((main envDenied argvNewlineName).1 ≠ 0 ∧
      (argvNewlineName.length ≠ 5 → '\n' ∉ (argvAt argvNewlineName 0).data) ∧
      envDenied.fopen (argvAt argvNewlineName 4) = .null "Permission denied" ∧
      '\n' ∉ "Permission denied".data ∧ '\n' ∈ (argvAt argvNewlineName 0).data) ∧
    ((stderrText (main envDenied argvNewlineName).2.trace).count '\n' =
      (if argvNewlineName.length = 5 then 1 else 2) ∧
    (stderrText (main envDenied argvNewlineName).2.trace).getLast? = some '\n' ∧
    stdoutText (main envDenied argvNewlineName).2.trace = [] ∧
    fileText (main envDenied argvNewlineName).2.trace = [] ∧
    (fsActions (main envDenied argvNewlineName).2.trace = [] ∨
      fsActions (main envDenied argvNewlineName).2.trace =
        [.fopenW (argvAt argvNewlineName 4) false]) ∧
    (∃ es t, (main envDenied argvNewlineName).2.trace = es ++ [.stderr t])) :=
  ⟨by decide, main_failure_diagnostic envDenied argvNewlineName (by decide) (by decide)
    (by
      intro reason _ _ _ _ hr
      have : reason = "Permission denied" := by
        simpa [envDenied] using hr.symm
      subst this
      decide)⟩

/-- A validation error under a program name that holds a newline still writes
exactly one line to the error stream. -/
theorem main_validation_one_line :
    (main envOpen ["a\nb", "0", "1", "1", "out.txt"]).1 ≠ 0 ∧
    (stderrText (main envOpen ["a\nb", "0", "1", "1", "out.txt"]).2.trace).count '\n' = 1 ∧
    (main envOpen ["a\nb", "0", "1", "1", "out.txt"]).2.trace = [.stderr
      "Erro: O número de pontos, dimensões e o valor máximo devem ser positivos.\n"] := by
  decide

/-- C8 as stated fails for the usage error: with two arguments the run fails and
the error stream receives two lines, not one. -/
theorem main_usage_two_lines :
    (main envOpen argvScenarioD).1 ≠ 0 ∧
    (stderrText (main envOpen argvScenarioD).2.trace).count '\n' = 2 ∧
    stderrText (main envOpen argvScenarioD).2.trace =
      ("Uso: gen <num_pontos> <num_dimensoes> <max_val> <arquivo_saida>\n" ++
        "Exemplo: gen 1000000 10 10000 dataset.txt\n").data := by
  decide

/-! ## The dataset written by a successful run -/

/-- C1: for positive `num_points`, `num_dimensions`, `max_val`, an output path
that opens and any stream of draws, the text written to the file holds exactly
`num_points` newline characters, its last character is a newline, and it
splits into exactly `num_points` lines. -/
theorem main_line_count (env : Env) (argv : List String) (h : argv.length = 5)
    (hp : 0 < atoi (argvAt argv 1)) (hd : 0 < atoi (argvAt argv 2))
    (hm : 0 < atoi (argvAt argv 3)) (ho : env.fopen (argvAt argv 4) = .stream) :
    (((fileText (main env argv).2.trace).count '\n' : Nat) : Int) = atoi (argvAt argv 1) ∧
    (fileText (main env argv).2.trace).getLast? = some '\n' ∧
    (((fileLines (fileText (main env argv).2.trace)).length : Nat) : Int) =
      atoi (argvAt argv 1) := by
  rw [main_fileText env argv h hp hd hm ho]
  have hrows := drawnPoints_rows env.rand (atoi (argvAt argv 1)).toNat
    (atoi (argvAt argv 2)).toNat (atoi (argvAt argv 3)) (by omega) hm
  have hnn : ∀ row ∈ drawnPoints env.rand (atoi (argvAt argv 1)).toNat
      (atoi (argvAt argv 2)).toNat (atoi (argvAt argv 3)), ∀ v ∈ row, 0 ≤ v :=
    fun row hrow v hv => ((hrows row hrow).2.2 v hv).1
  refine ⟨?_, ?_, ?_⟩
  · rw [count_newline_datasetText _ hnn, drawnPoints_length]
    omega
  · apply getLast?_datasetText
    intro hnil
    have := congrArg List.length hnil
    rw [drawnPoints_length] at this
    simp at this
    omega
  · rw [fileLines_datasetText _ hnn, List.length_map, drawnPoints_length]
    omega

theorem main_line_count_witness :
    (argvScenarioA.length = 5 ∧ 0 < atoi (argvAt argvScenarioA 1) ∧ 0 < atoi (argvAt argvScenarioA 2) ∧
      0 < atoi (argvAt argvScenarioA 3) ∧ envOpen.fopen (argvAt argvScenarioA 4) = .stream) ∧
    ((((fileText (main envOpen argvScenarioA).2.trace).count '\n' : Nat) : Int) =
      atoi (argvAt argvScenarioA 1) ∧
    (fileText (main envOpen argvScenarioA).2.trace).getLast? = some '\n' ∧
    (((fileLines (fileText (main envOpen argvScenarioA).2.trace)).length : Nat) : Int) =
      atoi (argvAt argvScenarioA 1)) :=
  ⟨by decide, main_line_count envOpen argvScenarioA (by decide) (by decide) (by decide)
    (by decide) (by decide)⟩

/-- C2: for positive `num_points`, `num_dimensions`, `max_val` (up to and
including `INT_MAX`) and any stream of draws, every line of the file written by
`main` splits on the space character into exactly `num_dimensions` tokens, and
every token reads as a decimal integer `v` with `0 <= v <= max_val`. -/
theorem main_lines_tokens (env : Env) (argv : List String) (h : argv.length = 5)
    (hp : 0 < atoi (argvAt argv 1)) (hd : 0 < atoi (argvAt argv 2))
    (hm : 0 < atoi (argvAt argv 3)) (ho : env.fopen (argvAt argv 4) = .stream) :
    ∀ line ∈ fileLines (fileText (main env argv).2.trace),
      (((line.splitOn ' ').length : Nat) : Int) = atoi (argvAt argv 2) ∧
      ∀ token ∈ line.splitOn ' ', ∃ v : Int,
        parseDecimal token = some v ∧ 0 ≤ v ∧ v ≤ atoi (argvAt argv 3) := by
  rw [main_fileText env argv h hp hd hm ho]
  have hrows := drawnPoints_rows env.rand (atoi (argvAt argv 1)).toNat
    (atoi (argvAt argv 2)).toNat (atoi (argvAt argv 3)) (by omega) hm
  rw [fileLines_datasetText _ (fun row hrow v hv => ((hrows row hrow).2.2 v hv).1)]
  intro line hline
  rw [List.mem_map] at hline
  obtain ⟨row, hrow, rfl⟩ := hline
  obtain ⟨hlen, hne, hvals⟩ := hrows row hrow
  rw [splitOn_rowBody row hne (fun v hv => (hvals v hv).1)]
  refine ⟨?_, ?_⟩
  · rw [List.length_map, hlen]
    omega
  · intro token htok
    rw [List.mem_map] at htok
    obtain ⟨v, hv, rfl⟩ := htok
    exact ⟨v, parseDecimal_fmtD v (hvals v hv).1, hvals v hv⟩

theorem main_lines_tokens_witness :
    (argvScenarioC.length = 5 ∧ 0 < atoi (argvAt argvScenarioC 1) ∧ 0 < atoi (argvAt argvScenarioC 2) ∧
      0 < atoi (argvAt argvScenarioC 3) ∧ envOpen.fopen (argvAt argvScenarioC 4) = .stream) ∧
    (∀ line ∈ fileLines (fileText (main envOpen argvScenarioC).2.trace),
      (((line.splitOn ' ').length : Nat) : Int) = atoi (argvAt argvScenarioC 2) ∧
      ∀ token ∈ line.splitOn ' ', ∃ v : Int,
        parseDecimal token = some v ∧ 0 ≤ v ∧ v ≤ atoi (argvAt argvScenarioC 3)) :=
  ⟨by decide, main_lines_tokens envOpen argvScenarioC (by decide) (by decide) (by decide)
    (by decide) (by decide)⟩

/-- C6: for every valid input the whole content of the file is the points in
order, each one its `num_dimensions` coordinates in decimal joined by one space
and followed by one newline.  No space stands before a newline, no space is
doubled or leads a line, no line is empty, the text begins with a digit of the
first point and ends with the newline of the last point. -/
theorem main_file_format (env : Env) (argv : List String) (h : argv.length = 5)
    (hp : 0 < atoi (argvAt argv 1)) (hd : 0 < atoi (argvAt argv 2))
    (hm : 0 < atoi (argvAt argv 3)) (ho : env.fopen (argvAt argv 4) = .stream) :
    fileText (main env argv).2.trace =
      datasetText (drawnPoints env.rand (atoi (argvAt argv 1)).toNat
        (atoi (argvAt argv 2)).toNat (atoi (argvAt argv 3))) ∧
    (((drawnPoints env.rand (atoi (argvAt argv 1)).toNat (atoi (argvAt argv 2)).toNat
      (atoi (argvAt argv 3))).length : Nat) : Int) = atoi (argvAt argv 1) ∧
    (∀ row ∈ drawnPoints env.rand (atoi (argvAt argv 1)).toNat (atoi (argvAt argv 2)).toNat
      (atoi (argvAt argv 3)), ((row.length : Nat) : Int) = atoi (argvAt argv 2)) ∧
    ¬ [' ', '\n'] <:+: fileText (main env argv).2.trace ∧
    ¬ [' ', ' '] <:+: fileText (main env argv).2.trace ∧
    ¬ ['\n', ' '] <:+: fileText (main env argv).2.trace ∧
    ¬ ['\n', '\n'] <:+: fileText (main env argv).2.trace ∧
    (∃ c, (fileText (main env argv).2.trace).head? = some c ∧ c.isDigit = true) ∧
    (fileText (main env argv).2.trace).getLast? = some '\n' := by
  have hft := main_fileText env argv h hp hd hm ho
  have hrows := drawnPoints_rows env.rand (atoi (argvAt argv 1)).toNat
    (atoi (argvAt argv 2)).toNat (atoi (argvAt argv 3)) (by omega) hm
  have hlen := drawnPoints_length env.rand (atoi (argvAt argv 1)).toNat
    (atoi (argvAt argv 2)).toNat (atoi (argvAt argv 3))
  have hne : drawnPoints env.rand (atoi (argvAt argv 1)).toNat
      (atoi (argvAt argv 2)).toNat (atoi (argvAt argv 3)) ≠ [] := by
    intro hnil
    rw [hnil] at hlen
    simp at hlen
    omega
  obtain ⟨hchain, hhead⟩ := datasetText_spaced _
    (fun row hrow => ⟨(hrows row hrow).2.1, fun v hv => ((hrows row hrow).2.2 v hv).1⟩)
  have hlast := getLast?_datasetText _ hne
  rw [← hft] at hchain hhead hlast
  refine ⟨hft, ?_, ?_, ?_, ?_, ?_, ?_, ?_, hlast⟩
  · rw [hlen]; omega
  · intro row hrow
    rw [(hrows row hrow).1]; omega
  · exact not_infix_of_spaced _ hchain _ _ (by decide) (by decide)
  · exact not_infix_of_spaced _ hchain _ _ (by decide) (by decide)
  · exact not_infix_of_spaced _ hchain _ _ (by decide) (by decide)
  · exact not_infix_of_spaced _ hchain _ _ (by decide) (by decide)
  · cases hx : (fileText (main env argv).2.trace).head? with
    | none =>
      rw [List.head?_eq_none_iff] at hx
      rw [hx] at hlast
      exact absurd hlast (by simp)
    | some c => exact ⟨c, rfl, hhead c (by rw [hx]; rfl)⟩

theorem main_file_format_witness :
    (argvScenarioA.length = 5 ∧ 0 < atoi (argvAt argvScenarioA 1) ∧ 0 < atoi (argvAt argvScenarioA 2) ∧
      0 < atoi (argvAt argvScenarioA 3) ∧ envOpen.fopen (argvAt argvScenarioA 4) = .stream) ∧
    (fileText (main envOpen argvScenarioA).2.trace =
      datasetText (drawnPoints envOpen.rand (atoi (argvAt argvScenarioA 1)).toNat
        (atoi (argvAt argvScenarioA 2)).toNat (atoi (argvAt argvScenarioA 3))) ∧
    (((drawnPoints envOpen.rand (atoi (argvAt argvScenarioA 1)).toNat (atoi (argvAt argvScenarioA 2)).toNat
      (atoi (argvAt argvScenarioA 3))).length : Nat) : Int) = atoi (argvAt argvScenarioA 1) ∧
    (∀ row ∈ drawnPoints envOpen.rand (atoi (argvAt argvScenarioA 1)).toNat (atoi (argvAt argvScenarioA 2)).toNat
      (atoi (argvAt argvScenarioA 3)), ((row.length : Nat) : Int) = atoi (argvAt argvScenarioA 2)) ∧
    ¬ [' ', '\n'] <:+: fileText (main envOpen argvScenarioA).2.trace ∧
    ¬ [' ', ' '] <:+: fileText (main envOpen argvScenarioA).2.trace ∧
    ¬ ['\n', ' '] <:+: fileText (main envOpen argvScenarioA).2.trace ∧
    ¬ ['\n', '\n'] <:+: fileText (main envOpen argvScenarioA).2.trace ∧
    (∃ c, (fileText (main envOpen argvScenarioA).2.trace).head? = some c ∧ c.isDigit = true) ∧
    (fileText (main envOpen argvScenarioA).2.trace).getLast? = some '\n') :=
  ⟨by decide, main_file_format envOpen argvScenarioA (by decide) (by decide) (by decide)
    (by decide) (by decide)⟩

/-- The run at the edge `max_val = INT_MAX`: the divisor wraps to `INT_MIN` and
every draw is written unchanged. -/
theorem main_at_INT_MAX :
    addInt32 (atoi "2147483647") 1 = INT_MIN ∧
    fileText (main envMax ["gen", "2", "2", "2147483647", "out.txt"]).2.trace =
      "2147483647 2147483646\n2147483645 2147483644\n".data := by
  decide

/-! ## Consumption of the draws -/

theorem index_lt (m n i j : Nat) (hi : i < m) (hj : j < n) : i * n + j < m * n := by
  have h1 : i * n + j < (i + 1) * n := by rw [Nat.succ_mul]; omega
  exact lt_of_lt_of_le h1 (Nat.mul_le_mul_right n hi)

theorem drawnPoints_congr (r1 r2 : Nat → Nat) (m n : Nat) (mv : Int)
    (hr : ∀ k, k < m * n → r1 k = r2 k) : drawnPoints r1 m n mv = drawnPoints r2 m n mv := by
  unfold drawnPoints
  apply List.map_congr_left
  intro i hi
  apply List.map_congr_left
  intro j hj
  rw [List.mem_range] at hi hj
  rw [hr _ (index_lt m n i j hi hj)]

theorem coordAt_datasetText (rand : Nat → Nat) (m n : Nat) (mv : Int) (hn : 0 < n) (hm : 0 < mv)
    (i j : Nat) (hi : i < m) (hj : j < n) :
    coordAt (datasetText (drawnPoints rand m n mv)) i j =
      some ((rand (i * n + j) : Int) % (mv + 1)) := by
  have hrows := drawnPoints_rows rand m n mv hn hm
  unfold coordAt
  rw [fileLines_datasetText _ (fun row hrow v hv => ((hrows row hrow).2.2 v hv).1)]
  have hrow : (drawnPoints rand m n mv)[i]? =
      some ((List.range n).map fun j => ((rand (i * n + j) : Int) % (mv + 1))) := by
    unfold drawnPoints
    rw [List.getElem?_map, List.getElem?_range hi]
    rfl
  have hmem := List.getElem?_mem hrow
  obtain ⟨_, hne, hvals⟩ := hrows _ hmem
  rw [List.getElem?_map, hrow]
  simp only [Option.map_some']
  rw [splitOn_rowBody _ hne (fun v hv => (hvals v hv).1), List.getElem?_map, List.getElem?_map,
    List.getElem?_range hj]
  simp only [Option.map_some']
  apply parseDecimal_fmtD
  exact (hvals _ (by
    rw [List.mem_map]
    exact ⟨j, List.mem_range.mpr hj, rfl⟩)).1

/-- C9: for every valid input and every stream of draws, `main` calls `rand()`
exactly `num_points * num_dimensions` times, the coordinate written at point
`i`, dimension `j` is draw number `i * num_dimensions + j` modulo `max_val + 1`,
and a run with the same arguments whose stream has the same first
`num_points * num_dimensions` draws writes the same file. -/
theorem main_draws_row_major (env : Env) (argv : List String) (h : argv.length = 5)
    (hp : 0 < atoi (argvAt argv 1)) (hd : 0 < atoi (argvAt argv 2))
    (hm : 0 < atoi (argvAt argv 3)) (ho : env.fopen (argvAt argv 4) = .stream) :
    (((main env argv).2.draws : Nat) : Int) = atoi (argvAt argv 1) * atoi (argvAt argv 2) ∧
    (∀ i j : Nat, (i : Int) < atoi (argvAt argv 1) → (j : Int) < atoi (argvAt argv 2) →
      coordAt (fileText (main env argv).2.trace) i j =
        some ((env.rand (i * (atoi (argvAt argv 2)).toNat + j) : Int) %
          (atoi (argvAt argv 3) + 1))) ∧
    (∀ env2 : Env, env2.fopen (argvAt argv 4) = .stream →
      (∀ k : Nat, (k : Int) < atoi (argvAt argv 1) * atoi (argvAt argv 2) →
        env2.rand k = env.rand k) →
      fileText (main env2 argv).2.trace = fileText (main env argv).2.trace) := by
  have hmul : (((atoi (argvAt argv 1)).toNat * (atoi (argvAt argv 2)).toNat : Nat) : Int) =
      atoi (argvAt argv 1) * atoi (argvAt argv 2) := by
    rw [Nat.cast_mul, Int.toNat_of_nonneg (le_of_lt hp), Int.toNat_of_nonneg (le_of_lt hd)]
  refine ⟨?_, ?_, ?_⟩
  · rw [main_draw_count env argv h hp hd hm ho, hmul]
  · intro i j hi hj
    rw [main_fileText env argv h hp hd hm ho]
    exact coordAt_datasetText env.rand _ _ _ (by omega) hm i j (by omega) (by omega)
  · intro env2 ho2 hr
    rw [main_fileText env argv h hp hd hm ho, main_fileText env2 argv h hp hd hm ho2]
    congr 1
    apply drawnPoints_congr
    intro k hk
    apply hr
    rw [← hmul]
    exact_mod_cast hk

theorem main_draws_row_major_witness :
    (argvScenarioA.length = 5 ∧ 0 < atoi (argvAt argvScenarioA 1) ∧ 0 < atoi (argvAt argvScenarioA 2) ∧
      0 < atoi (argvAt argvScenarioA 3) ∧ envOpen.fopen (argvAt argvScenarioA 4) = .stream) ∧
    ((((main envOpen argvScenarioA).2.draws : Nat) : Int) =
      atoi (argvAt argvScenarioA 1) * atoi (argvAt argvScenarioA 2) ∧
    (∀ i j : Nat, (i : Int) < atoi (argvAt argvScenarioA 1) → (j : Int) < atoi (argvAt argvScenarioA 2) →
      coordAt (fileText (main envOpen argvScenarioA).2.trace) i j =
        some ((envOpen.rand (i * (atoi (argvAt argvScenarioA 2)).toNat + j) : Int) %
          (atoi (argvAt argvScenarioA 3) + 1))) ∧
    (∀ env2 : Env, env2.fopen (argvAt argvScenarioA 4) = .stream →
      (∀ k : Nat, (k : Int) < atoi (argvAt argvScenarioA 1) * atoi (argvAt argvScenarioA 2) →
        env2.rand k = envOpen.rand k) →
      fileText (main env2 argvScenarioA).2.trace = fileText (main envOpen argvScenarioA).2.trace)) :=
  ⟨by decide, main_draws_row_major envOpen argvScenarioA (by decide) (by decide) (by decide)
    (by decide) (by decide)⟩

end GeradorDataset
